import Mathlib

/-!
Verification of the puzzle-element state machines of a tick-driven 3D puzzle
game.  Each component's per-tick `update` system is shallowly embedded as a
pure Lean function over rational-valued timers; per-tick external signals
(sensor containment, input buttons, raycast results, delta-time) are passed
as explicit arguments.
-/

/-! ## SecurityCamera (src/components/security_camera.rs) -/

/-- The `SecurityCamera` component: `active` and `wire` are externally
mutable (level wiring resp. socket system), `triggered` is the latched
alarm. -/
structure SecurityCamera where
  active : Bool
  triggered : Bool
  wire : Bool
  deriving DecidableEq, Repr

/-- `SecurityCamera::new()`. -/
def SecurityCamera.new : SecurityCamera :=
  { active := true, triggered := false, wire := false }

/-- One iteration of the camera `update` system for one sensor: `inside`
models "some PlayerCollision has `other == sensor entity`", `dt` is
`time.delta_seconds()`.  Returns the camera and the sensor timer after the
tick.  Rendering side effects (cone color/light) are omitted. -/
def camUpdate (cam : SecurityCamera) (timer : ℚ) (inside : Bool) (dt : ℚ) :
    SecurityCamera × ℚ :=
  if cam.triggered then (cam, timer)
  else
    let interacting := inside || cam.wire
    let t := if interacting && cam.active then timer + dt * (1 / 5) else timer - dt
    let t := max t 0
    if t > 1 then ({ cam with triggered := true }, 1) else (cam, t)

/-- Iterated camera ticks; each tick first lets the level wiring overwrite
`active`, then runs `camUpdate` with that tick's `inside` and `dt`. -/
def camRun : SecurityCamera × ℚ → List (Bool × Bool × ℚ) → SecurityCamera × ℚ
  | s, [] => s
  | (cam, t), (a, ins, dt) :: rest =>
      camRun (camUpdate { cam with active := a } t ins dt) rest

theorem camRun_triggered (l : List (Bool × Bool × ℚ)) :
    ∀ s : SecurityCamera × ℚ, s.1.triggered = true → (camRun s l).1.triggered = true := by
  induction l with
  | nil => intro s h; exact h
  | cons hd tl ih =>
      intro s h
      obtain ⟨cam, t⟩ := s
      obtain ⟨a, ins, dt⟩ := hd
      have h' : cam.triggered = true := h
      have hstep : camUpdate { cam with active := a } t ins dt = ({ cam with active := a }, t) := by
        simp [camUpdate, h']
      show (camRun (camUpdate { cam with active := a } t ins dt) tl).1.triggered = true
      rw [hstep]
      exact ih _ (by simpa using h')

/-- C1 (amended): for an untriggered camera one tick changes the timer by
+0.2/s of delta-time when `active && (inside || wire)` and by -1.0/s
otherwise, clamped below at 0 and never exceeding 1.0 after the update;
`triggered` becomes true exactly when the pre-clamp timer strictly exceeds
1.0 (the timer is then locked to 1.0), and a triggered camera is inert on
all subsequent ticks even if `active` is later set false. -/
theorem securityCamera_tick_spec (cam : SecurityCamera) (timer : ℚ)
    (inside : Bool) (dt : ℚ) (hnt : cam.triggered = false) :
    let raw := if (inside || cam.wire) && cam.active then timer + dt * (1 / 5) else timer - dt
    let res := camUpdate cam timer inside dt
    (0 ≤ res.2 ∧ res.2 ≤ 1)
      ∧ (0 ≤ raw → raw ≤ 1 → res.2 = raw)
      ∧ (raw ≤ 0 → res.2 = 0)
      ∧ (res.1.triggered = true ↔ 1 < raw)
      ∧ (1 < raw → res.2 = 1)
      ∧ res.1.active = cam.active ∧ res.1.wire = cam.wire
      ∧ (∀ (l : List (Bool × Bool × ℚ)) (s : SecurityCamera × ℚ),
          s.1.triggered = true → (camRun s l).1.triggered = true) := by
  intro raw res
  have hres : res = if 1 < max raw 0 then ({ cam with triggered := true }, 1)
      else (cam, max raw 0) := by
    show camUpdate cam timer inside dt = _
    simp only [camUpdate, hnt, Bool.false_eq_true, if_false]
  have hmax : 1 < max raw 0 ↔ 1 < raw := by
    constructor
    · intro h
      rcases lt_max_iff.mp h with h | h
      · exact h
      · norm_num at h
    · intro h
      exact lt_max_iff.mpr (Or.inl h)
  refine ⟨?_, ?_, ?_, ?_, ?_, ?_, ?_, ?_⟩
  · rw [hres]
    by_cases hM : 1 < max raw 0
    · rw [if_pos hM]
      exact ⟨zero_le_one, le_refl 1⟩
    · rw [if_neg hM]
      exact ⟨le_max_right _ _, not_lt.mp hM⟩
  · intro h0 h1
    rw [hres, max_eq_left h0, if_neg (not_lt.mpr h1)]
  · intro h0
    rw [hres, max_eq_right h0, if_neg (by norm_num : ¬ (1:ℚ) < 0)]
  · rw [hres]
    by_cases hM : 1 < max raw 0
    · rw [if_pos hM]
      exact ⟨fun _ => hmax.mp hM, fun _ => rfl⟩
    · rw [if_neg hM]
      exact ⟨fun h => absurd h (by simp [hnt]), fun h => absurd (hmax.mpr h) hM⟩
  · intro h
    rw [hres, if_pos (hmax.mpr h)]
  · rw [hres]
    split <;> rfl
  · rw [hres]
    split <;> rfl
  · exact fun l s hs => camRun_triggered l s hs

theorem securityCamera_tick_spec_witness :
    (SecurityCamera.new.triggered = false)
      ∧ ((0 : ℚ) ≤ (camUpdate SecurityCamera.new 0 true 1).2
          ∧ (camUpdate SecurityCamera.new 0 true 1).2 ≤ 1) := by
  refine ⟨rfl, ?_⟩
  exact (securityCamera_tick_spec SecurityCamera.new 0 true 1 rfl).1

/-- C1 counterexample: with a fresh camera (`active`, no wire), the player
inside and delta-time 5 s, the detection timer reaches exactly 1.0 yet
`triggered` stays false — the code triggers only when the timer strictly
exceeds 1.0. -/
theorem securityCamera_reach_one_not_triggered :
    (camUpdate SecurityCamera.new 0 true 5).2 = 1
      ∧ (camUpdate SecurityCamera.new 0 true 5).1.triggered = false := by
  constructor <;> norm_num [camUpdate, SecurityCamera.new]

/-! ## Gate (src/components/gate.rs) -/

/-- The `Gate` component's logical state (the animation-clip handle is an
external resource and is omitted). -/
structure Gate where
  is_open : Bool
  start_animation : Bool
  deriving DecidableEq, Repr

/-- `Gate::new` (both flags start false). -/
def Gate.new : Gate := { is_open := false, start_animation := false }

/-- `Gate::opened`: `is_open && start_animation == false`. -/
def Gate.opened (g : Gate) : Bool := g.is_open && !g.start_animation

/-- `Gate::open`: sets both `is_open` and `start_animation` true. -/
def Gate.open (_ : Gate) : Gate := { is_open := true, start_animation := true }

/-- Commands the gate `update` system issues to external collaborators:
an animation playback (`forward = true` means speed 1.0, reverse -1.0) and
adding/removing the `Sensor` marker on the blocking collider. -/
inductive GateCmd where
  | play (forward : Bool)
  | removeSensor
  | insertSensor
  deriving DecidableEq, Repr

def GateCmd.isPlay : GateCmd → Bool
  | .play _ => true
  | _ => false

/-- One iteration of the gate `update` system for one gate.
`animFinished` models `animation_player.is_finished()`.  Returns the gate
and the list of emitted commands, in program order. -/
def gateUpdate (g : Gate) (animFinished : Bool) : Gate × List GateCmd :=
  let (g, cmds) :=
    if g.start_animation then
      ({ g with start_animation := false },
        [GateCmd.play g.is_open] ++ (if g.is_open then [] else [GateCmd.removeSensor]))
    else (g, [])
  (g, cmds ++ (if animFinished && g.is_open then [GateCmd.insertSensor] else []))

/-- C3 counterexample: for a gate that is already `opened()`, calling
`open()` and running one update does issue a new (forward) animation
playback command — `open()` is not idempotent. -/
theorem gate_open_replays_animation :
    Gate.opened { is_open := true, start_animation := false } = true
      ∧ GateCmd.play true ∈ (gateUpdate (Gate.open { is_open := true, start_animation := false }) false).2 := by
  constructor
  · rfl
  · simp [gateUpdate, Gate.open]

/-- C3 (amended): calling `open()` on an already-`opened()` gate restarts
the opening animation: the following update issues exactly one playback
command, playing forward; `opened()` is false at construction, and holds
exactly when `is_open` is set and the animation-start flag has been
consumed by an update (after which the gate reports `opened()` again). -/
theorem gate_open_spec (g : Gate) (animFinished : Bool) (h : Gate.opened g = true) :
    ((gateUpdate (Gate.open g) animFinished).2.filter GateCmd.isPlay = [GateCmd.play true])
      ∧ Gate.opened Gate.new = false
      ∧ (∀ g' : Gate, Gate.opened g' = true ↔ (g'.is_open = true ∧ g'.start_animation = false))
      ∧ Gate.opened (gateUpdate (Gate.open g) animFinished).1 = true := by
  refine ⟨?_, rfl, ?_, ?_⟩
  · cases animFinished <;> simp [gateUpdate, Gate.open, GateCmd.isPlay]
  · intro g'
    simp [Gate.opened]
  · cases animFinished <;> simp [gateUpdate, Gate.open, Gate.opened]

theorem gate_open_spec_witness :
    Gate.opened { is_open := true, start_animation := false } = true
      ∧ Gate.opened Gate.new = false := by
  refine ⟨rfl, ?_⟩
  exact (gate_open_spec { is_open := true, start_animation := false } false rfl).2.1

/-! ## Switch (src/components/switch.rs) -/

/-- The `Switch` component (animation handle omitted). -/
structure Switch where
  clicked : Bool
  timer : ℚ
  deriving DecidableEq, Repr

/-- `Switch::new`. -/
def Switch.new : Switch := { clicked := false, timer := 0 }

/-- `Switch::activated`: `timer >= 0.5`. -/
def Switch.activated (s : Switch) : Bool := decide ((1 : ℚ) / 2 ≤ s.timer)

/-- One iteration of the switch `update` system for one switch: `inside`
models sensor containment, `action` is `player.is_action`, `dt` is
`time.delta_seconds()`.  The rising-edge animation playback and the
red/green screen visibility outputs are omitted. -/
def switchUpdate (s : Switch) (inside action : Bool) (dt : ℚ) : Switch :=
  let clickedNow := inside && action
  let clicked := s.clicked || clickedNow
  let timer := if clicked then s.timer + dt * 2 else s.timer
  { clicked := clicked, timer := min (max timer 0) 1 }

/-- Iterated switch ticks over a list of `(inside, action, dt)` inputs. -/
def switchRun (s : Switch) : List (Bool × Bool × ℚ) → Switch
  | [] => s
  | (ins, act, dt) :: rest => switchRun (switchUpdate s ins act dt) rest

theorem switchUpdate_clicked_mono (s : Switch) (inside action : Bool) (dt : ℚ)
    (h : s.clicked = true) : (switchUpdate s inside action dt).clicked = true := by
  simp [switchUpdate, h]

theorem switchUpdate_timer_bounds (s : Switch) (inside action : Bool) (dt : ℚ) :
    0 ≤ (switchUpdate s inside action dt).timer
      ∧ (switchUpdate s inside action dt).timer ≤ 1 := by
  refine ⟨?_, ?_⟩
  · exact le_min (le_max_right _ _) zero_le_one
  · exact min_le_right _ _

theorem switchUpdate_timer_mono (s : Switch) (inside action : Bool) (dt : ℚ)
    (hdt : 0 ≤ dt) (h0 : 0 ≤ s.timer) (h1 : s.timer ≤ 1) :
    s.timer ≤ (switchUpdate s inside action dt).timer := by
  have h2 : (switchUpdate s inside action dt).timer
      = min (max (if (s.clicked || (inside && action)) = true then s.timer + dt * 2 else s.timer) 0) 1 := rfl
  rw [h2]
  by_cases hc : (s.clicked || (inside && action)) = true
  · rw [if_pos hc]
    refine le_min (le_max_of_le_left (by linarith)) h1
  · rw [if_neg hc]
    exact le_min (le_max_of_le_left (le_refl _)) h1

theorem switchRun_spec_aux (l : List (Bool × Bool × ℚ))
    (hl : ∀ x ∈ l, 0 ≤ x.2.2) :
    ∀ s : Switch, 0 ≤ s.timer → s.timer ≤ 1 →
      (s.clicked = true → (switchRun s l).clicked = true)
        ∧ s.timer ≤ (switchRun s l).timer
        ∧ 0 ≤ (switchRun s l).timer ∧ (switchRun s l).timer ≤ 1 := by
  induction l with
  | nil => exact fun s h0 h1 => ⟨fun h => h, le_refl _, h0, h1⟩
  | cons hd tl ih =>
      intro s h0 h1
      obtain ⟨ins, act, dt⟩ := hd
      have hdt : 0 ≤ dt := hl (ins, act, dt) (List.mem_cons_self _ _)
      have hb := switchUpdate_timer_bounds s ins act dt
      have ihs := ih (fun x hx => hl x (List.mem_cons_of_mem _ hx))
        (switchUpdate s ins act dt) hb.1 hb.2
      refine ⟨?_, ?_, ihs.2.2⟩
      · intro h
        exact ihs.1 (switchUpdate_clicked_mono s ins act dt h)
      · exact le_trans (switchUpdate_timer_mono s ins act dt hdt h0 h1) ihs.2.1

/-- C6: for any switch with a timer in [0,1] and any tick sequence with
nonnegative delta-times: `clicked` is a monotone latch, the timer is
non-decreasing and stays within [0,1], and `activated()` (`timer ≥ 0.5`)
is monotone — once true it never reverts. -/
theorem switch_latch_spec (s : Switch) (l : List (Bool × Bool × ℚ))
    (h0 : 0 ≤ s.timer) (h1 : s.timer ≤ 1) (hl : ∀ x ∈ l, 0 ≤ x.2.2) :
    (s.clicked = true → (switchRun s l).clicked = true)
      ∧ s.timer ≤ (switchRun s l).timer
      ∧ (0 ≤ (switchRun s l).timer ∧ (switchRun s l).timer ≤ 1)
      ∧ (Switch.activated s = true → Switch.activated (switchRun s l) = true)
      ∧ (Switch.activated s = true ↔ (1 : ℚ) / 2 ≤ s.timer) := by
  obtain ⟨ha, hb, hc, hd⟩ := switchRun_spec_aux l hl s h0 h1
  refine ⟨ha, hb, ⟨hc, hd⟩, ?_, by simp [Switch.activated]⟩
  intro hact
  have : (1 : ℚ) / 2 ≤ s.timer := by simpa [Switch.activated] using hact
  simp only [Switch.activated, decide_eq_true_eq]
  linarith

theorem switch_latch_spec_witness :
    ((0 : ℚ) ≤ Switch.new.timer ∧ Switch.new.timer ≤ 1
        ∧ (Switch.new.clicked = true → (switchRun Switch.new [(true, true, 1)]).clicked = true))
      ∧ Switch.new.timer ≤ (switchRun Switch.new [(true, true, 1)]).timer := by
  refine ⟨⟨by norm_num [Switch.new], by norm_num [Switch.new], ?_⟩, ?_⟩
  · exact (switch_latch_spec Switch.new [(true, true, 1)] (by norm_num [Switch.new])
      (by norm_num [Switch.new]) (by intro x hx; simp at hx; simp [hx])).1
  · exact (switch_latch_spec Switch.new [(true, true, 1)] (by norm_num [Switch.new])
      (by norm_num [Switch.new]) (by intro x hx; simp at hx; simp [hx])).2.1

/-! ## Fan (src/components/fan.rs) -/

/-- One fan as seen by the `update` system.  `up` models the fan's
world-space up direction projected to the plane and normalized
(`transform_g.up().xy().normalize_or_zero()`, an external transform
query); the rotor model entity is omitted. -/
structure Fan where
  spinning : Bool
  factor : ℚ
  up : ℚ × ℚ
  deriving DecidableEq, Repr

/-- The push contribution of one fan: 15.0 along its (normalized) up
direction. -/
def fanContrib (f : Fan) : ℚ × ℚ := (f.up.1 * 15, f.up.2 * 15)

/-- The fan `update` loop body, iterating the fans in order with index `i`;
`inside i` models "some PlayerCollision has `other == fan i's pusher`".
Carries the accumulated `player.push_vec`; a fan spins down (clamped
`factor`) only when not `spinning`, and pushes only when `spinning` with
the player inside its pusher sensor. -/
def fansGo (inside : ℕ → Bool) (dt : ℚ) : ℕ → List Fan → ℚ × ℚ → (ℚ × ℚ) × List Fan
  | _, [], push => (push, [])
  | i, f :: rest, push =>
    if f.spinning then
      if inside i then
        let r := fansGo inside dt (i + 1) rest (push.1 + f.up.1 * 15, push.2 + f.up.2 * 15)
        (r.1, f :: r.2)
      else
        let r := fansGo inside dt (i + 1) rest push
        (r.1, f :: r.2)
    else
      let r := fansGo inside dt (i + 1) rest push
      (r.1, { f with factor := min (max (f.factor - dt) 0) 1 } :: r.2)

/-- The fan `update` system: `player.push_vec` is reset to zero first
(whatever value `push0` it held), then every fan contributes. -/
def fansUpdate (fans : List Fan) (inside : ℕ → Bool) (dt : ℚ) (push0 : ℚ × ℚ) :
    (ℚ × ℚ) × List Fan :=
  let _ := push0
  fansGo inside dt 0 fans (0, 0)

/-- Modelled from the spec: the sum of the contributions of all fans that
are spinning and whose pusher sensor contains the player, for comparison
with `fansUpdate`. -/
def fanPushSum (inside : ℕ → Bool) : ℕ → List Fan → ℚ × ℚ
  | _, [] => (0, 0)
  | i, f :: rest =>
    let s := fanPushSum inside (i + 1) rest
    if f.spinning && inside i then (f.up.1 * 15 + s.1, f.up.2 * 15 + s.2) else s

theorem fansGo_push (inside : ℕ → Bool) (dt : ℚ) :
    ∀ (fans : List Fan) (i : ℕ) (push : ℚ × ℚ),
      (fansGo inside dt i fans push).1
        = (push.1 + (fanPushSum inside i fans).1, push.2 + (fanPushSum inside i fans).2) := by
  intro fans
  induction fans with
  | nil => intro i push; simp [fansGo, fanPushSum]
  | cons f rest ih =>
      intro i push
      cases hs : f.spinning with
      | true =>
          cases hi : inside i with
          | true =>
              simp only [fansGo, hs, hi, if_true]
              rw [ih]
              simp only [fanPushSum, hs, hi, Bool.and_self, if_true]
              simp only [Prod.mk.injEq]
              constructor <;> ring
          | false =>
              simp only [fansGo, hs, hi, if_true, Bool.false_eq_true, if_false]
              rw [ih]
              simp [fanPushSum, hs, hi]
      | false =>
          simp only [fansGo, hs, Bool.false_eq_true, if_false]
          rw [ih]
          simp [fanPushSum, hs]

/-- C8: the fan update resets the shared push vector to zero exactly once
before any fan contributes (the result does not depend on the previous
accumulator value), and afterwards the accumulator equals exactly the sum
of the 15.0-along-up contributions of all fans that are spinning with the
player inside their pusher sensor. -/
theorem fan_push_accumulator_spec (fans : List Fan) (inside : ℕ → Bool)
    (dt : ℚ) (push0 : ℚ × ℚ) :
    (fansUpdate fans inside dt push0).1 = fanPushSum inside 0 fans
      ∧ ∀ push1 : ℚ × ℚ, (fansUpdate fans inside dt push0).1 = (fansUpdate fans inside dt push1).1 := by
  constructor
  · show (fansGo inside dt 0 fans (0, 0)).1 = _
    rw [fansGo_push]
    simp
  · intro push1
    rfl

/-! ## Code keypad (src/components/code.rs) -/

/-- The 7-segment mask table of the segment-display loop at the end of the
code `update` system, keyed by the byte of `input` occupying a digit slot
(`input.as_bytes().get(i)`); any other byte, or an empty slot, yields 0. -/
def digitMask : Option ℕ → ℕ
  | some 0x30 => 0b1110111
  | some 0x31 => 0b0100100
  | some 0x32 => 0b1011101
  | some 0x33 => 0b1101101
  | some 0x34 => 0b0101110
  | some 0x35 => 0b1101011
  | some 0x36 => 0b1111011
  | some 0x37 => 0b0100101
  | some 0x38 => 0b1111111
  | some 0x39 => 0b1101111
  | _ => 0

/-- The mask displayed on digit slot `i` for the current `input` buffer
(bytes). -/
def segMask (input : List ℕ) (i : ℕ) : ℕ := digitMask (input.get? i)

/-- Visibility of segment sub-element `j` of digit slot `i`:
`(mask >> j) & 1 > 0`. -/
def segVisible (input : List ℕ) (i j : ℕ) : Bool :=
  decide (0 < segMask input i >>> j &&& 1)

/-- Modelled from the spec: the fixed digit table
`{0:0x77, 1:0x24, 2:0x5D, 3:0x6D, 4:0x2E, 5:0x6B, 6:0x7B, 7:0x25, 8:0x7F, 9:0x6F}`. -/
def specDigitTable : ℕ → ℕ
  | 0 => 0x77
  | 1 => 0x24
  | 2 => 0x5D
  | 3 => 0x6D
  | 4 => 0x2E
  | 5 => 0x6B
  | 6 => 0x7B
  | 7 => 0x25
  | 8 => 0x7F
  | 9 => 0x6F
  | _ => 0

/-- C7: for every digit slot, the displayed 7-segment mask is the fixed
table applied to the digit of `input` occupying that slot (bit `j` of the
mask drives the visibility of segment sub-element `j`), and a slot with no
input digit yields mask 0, all seven segments hidden. -/
theorem code_digit_mask_spec (input : List ℕ) (i : ℕ) :
    (∀ d : ℕ, d ≤ 9 → input.get? i = some (0x30 + d) → segMask input i = specDigitTable d)
      ∧ (input.get? i = none → segMask input i = 0)
      ∧ (∀ j : ℕ, segVisible input i j = Nat.testBit (segMask input i) j)
      ∧ (input.get? i = none → ∀ j : ℕ, segVisible input i j = false) := by
  refine ⟨?_, ?_, ?_, ?_⟩
  · intro d hd hget
    unfold segMask
    rw [hget]
    interval_cases d <;> rfl
  · intro hget
    unfold segMask
    rw [hget]
    rfl
  · intro j
    rw [segVisible, Nat.testBit_to_div_mod, Nat.and_one_is_mod, Nat.shiftRight_eq_div_pow]
    rcases Nat.mod_two_eq_zero_or_one (segMask input i / 2 ^ j) with h | h <;> simp [h]
  · intro hget j
    rw [segVisible, segMask, hget]
    show decide (0 < (0 : ℕ) >>> j &&& 1) = false
    simp

theorem code_digit_mask_spec_witness :
    [0x31, 0x38].get? 0 = some (0x30 + 1)
      ∧ segMask [0x31, 0x38] 0 = specDigitTable 1
      ∧ [0x31, 0x38].get? 2 = none
      ∧ segMask [0x31, 0x38] 2 = 0 := by
  refine ⟨rfl, ?_, rfl, ?_⟩
  · exact (code_digit_mask_spec [0x31, 0x38] 0).1 1 (by norm_num) rfl
  · exact (code_digit_mask_spec [0x31, 0x38] 2).2.1 rfl

/-- `Code` states (`State` in code.rs). -/
inductive CodeState where
  | idle
  | acting
  | inputFinished
  | success
  deriving DecidableEq, Repr

/-- Result of the per-tick cursor raycast in the `Acting` branch:
`noRay` models `**cursor_ray == None` (the block is skipped), `noHit`
models a cast that does not return exactly one hit (the whole update
returns early), `hit b` a single hit whose ancestor chain contains button
`b` (or no button). -/
inductive RayRes where
  | noRay
  | noHit
  | hit (b : Option (Fin 10))

/-- The per-tick external inputs of the code `update` system. -/
structure CInput where
  inside : Bool
  action : Bool
  mouse : Bool
  ray : RayRes
  dt : ℚ

/-- The `Code` component.  `input` is the byte string of captured digits;
`btnTimers` are the per-button press-depth timers (buttons are numbered
0–9 by `init`); discovered entity handles are omitted. -/
structure Code where
  secret : ℕ
  input : List ℕ
  is_action_last : Bool
  is_mouse_last : Bool
  finish_timer : ℚ
  btnTimers : Fin 10 → ℚ
  state : CodeState

/-- `Code::new` (the source panics when `secret > 9999`; that
configuration precondition is not modelled). -/
def Code.new (secret : ℕ) : Code :=
  { secret := secret, input := [], is_action_last := false, is_mouse_last := false,
    finish_timer := 0, btnTimers := fun _ => 0, state := .idle }

/-- The accumulating value of `input.parse::<u32>()` over digit bytes. -/
def parseVal (l : List ℕ) : ℕ := l.foldl (fun a b => a * 10 + (b - 0x30)) 0

/-- `str::parse::<u32>`: succeeds on a nonempty all-digit string whose
value fits in 32 bits. -/
def parseInput (l : List ℕ) : Option ℕ :=
  if l ≠ [] ∧ (∀ b ∈ l, 0x30 ≤ b ∧ b ≤ 0x39) ∧ parseVal l < 2 ^ 32 then some (parseVal l)
  else none

/-- One iteration of the code `update` system for one keypad.  View
controller and screen-material side effects are omitted; in the
`InputFinished` branch a `parseInput` failure (where the source would
panic on `unwrap`) leaves the component unchanged. -/
def codeTick (c : Code) (inp : CInput) : Code :=
  let acted := !c.is_action_last && inp.action
  let clicked := !c.is_mouse_last && inp.mouse
  let c := { c with is_action_last := inp.action, is_mouse_last := inp.mouse }
  match c.state with
  | .idle => if inp.inside && acted then { c with state := .acting } else c
  | .acting =>
    if acted then { c with state := .idle }
    else
      match inp.ray with
      | .noRay =>
          if c.input.length = 4 then { c with state := .inputFinished, finish_timer := 0 } else c
      | .noHit => c
      | .hit b =>
          let timers := fun j =>
            let t := if b = some j then c.btnTimers j + inp.dt * 10 else c.btnTimers j - inp.dt * 10
            min (max t 0) 1
          let c := { c with btnTimers := timers }
          let c :=
            match b with
            | some n => if clicked then { c with input := c.input ++ [0x30 + (n : ℕ)] } else c
            | none => c
          if c.input.length = 4 then { c with state := .inputFinished, finish_timer := 0 } else c
  | .inputFinished =>
    let c := { c with finish_timer := c.finish_timer + inp.dt * 5 }
    match parseInput c.input with
    | some v =>
        if v = c.secret then
          if 1 ≤ c.finish_timer then { c with state := .success } else c
        else
          if 1 ≤ c.finish_timer then { c with state := .acting, input := [] } else c
    | none => c
  | .success => c

/-- Iterated code ticks. -/
def codeRun (c : Code) : List CInput → Code
  | [] => c
  | inp :: rest => codeRun (codeTick c inp) rest

/-- The inductive invariant of the `Code` state machine: the input buffer
holds only ASCII digits, never more than 4 of them, at most 3 while idle
or acting, and exactly 4 in `InputFinished`. -/
def CodeInv (c : Code) : Prop :=
  (∀ b ∈ c.input, 0x30 ≤ b ∧ b ≤ 0x39)
    ∧ c.input.length ≤ 4
    ∧ ((c.state = .idle ∨ c.state = .acting) → c.input.length ≤ 3)
    ∧ (c.state = .inputFinished → c.input.length = 4)

theorem parseVal_aux (l : List ℕ) (hd : ∀ b ∈ l, 0x30 ≤ b ∧ b ≤ 0x39) :
    ∀ a : ℕ, l.foldl (fun a b => a * 10 + (b - 0x30)) a < (a + 1) * 10 ^ l.length := by
  induction l with
  | nil => intro a; simpa using Nat.lt_succ_self a
  | cons b rest ih =>
      intro a
      have hb := hd b (List.mem_cons_self _ _)
      have hrest := ih (fun x hx => hd x (List.mem_cons_of_mem _ hx)) (a * 10 + (b - 0x30))
      have h2 : a * 10 + (b - 0x30) + 1 ≤ (a + 1) * 10 := by omega
      have h3 : (a * 10 + (b - 0x30) + 1) * 10 ^ rest.length ≤ (a + 1) * 10 * 10 ^ rest.length :=
        Nat.mul_le_mul_right _ h2
      have h4 : (a + 1) * 10 * 10 ^ rest.length = (a + 1) * 10 ^ (rest.length + 1) := by ring
      calc rest.foldl (fun a b => a * 10 + (b - 0x30)) (a * 10 + (b - 0x30))
          < (a * 10 + (b - 0x30) + 1) * 10 ^ rest.length := hrest
        _ ≤ (a + 1) * 10 ^ (rest.length + 1) := h4 ▸ h3

theorem parseInput_isSome (l : List ℕ) (hd : ∀ b ∈ l, 0x30 ≤ b ∧ b ≤ 0x39)
    (hlen : l.length = 4) : (parseInput l).isSome = true := by
  have hne : l ≠ [] := by
    intro h
    rw [h] at hlen
    simp at hlen
  have hval : parseVal l < 2 ^ 32 := by
    have := parseVal_aux l hd 0
    rw [hlen] at this
    calc parseVal l < (0 + 1) * 10 ^ 4 := this
      _ < 2 ^ 32 := by norm_num
  rw [parseInput, if_pos ⟨hne, hd, hval⟩]
  rfl

theorem codeTick_inv (c : Code) (inp : CInput) (h : CodeInv c) : CodeInv (codeTick c inp) := by
  obtain ⟨secret, input, ial, iml, ft, bt, st⟩ := c
  obtain ⟨hdig, hlen, hact, hfin⟩ := h
  cases st with
  | idle =>
      have h3 : input.length ≤ 3 := hact (Or.inl rfl)
      simp only [codeTick]
      split_ifs <;> exact ⟨hdig, hlen, fun _ => h3, by simp⟩
  | acting =>
      have h3 : input.length ≤ 3 := hact (Or.inr rfl)
      simp only [codeTick]
      by_cases h1 : (!ial && inp.action) = true
      · rw [if_pos h1]
        exact ⟨hdig, hlen, fun _ => h3, by simp⟩
      · rw [if_neg h1]
        cases hr : inp.ray with
        | noRay =>
            dsimp only
            rw [if_neg (by omega : ¬ input.length = 4)]
            exact ⟨hdig, hlen, fun _ => h3, by simp⟩
        | noHit =>
            exact ⟨hdig, hlen, fun _ => h3, by simp⟩
        | hit b =>
            cases b with
            | none =>
                dsimp only
                rw [if_neg (by omega : ¬ input.length = 4)]
                exact ⟨hdig, hlen, fun _ => h3, by simp⟩
            | some n =>
                dsimp only
                have hn : (n : ℕ) ≤ 9 := Nat.lt_succ_iff.mp n.isLt
                have hdig2 : ∀ x ∈ input ++ [0x30 + (n : ℕ)], 0x30 ≤ x ∧ x ≤ 0x39 := by
                  intro x hx
                  rcases List.mem_append.mp hx with hx | hx
                  · exact hdig x hx
                  · simp only [List.mem_singleton] at hx
                    omega
                by_cases h2 : (!iml && inp.mouse) = true
                · rw [if_pos h2]
                  dsimp only
                  by_cases h4 : (input ++ [0x30 + (n : ℕ)]).length = 4
                  · rw [if_pos h4]
                    exact ⟨hdig2, le_of_eq h4, by simp, fun _ => h4⟩
                  · rw [if_neg h4]
                    have hl4 : (input ++ [0x30 + (n : ℕ)]).length ≤ 4 := by
                      simp only [List.length_append, List.length_singleton]
                      omega
                    have hl3 : (input ++ [0x30 + (n : ℕ)]).length ≤ 3 := by
                      simp only [List.length_append, List.length_singleton] at h4 ⊢
                      omega
                    exact ⟨hdig2, hl4, fun _ => hl3, by simp⟩
                · rw [if_neg h2]
                  dsimp only
                  rw [if_neg (by omega : ¬ input.length = 4)]
                  exact ⟨hdig, hlen, fun _ => h3, by simp⟩
  | inputFinished =>
      have h4 : input.length = 4 := hfin rfl
      simp only [codeTick]
      split
      · split_ifs with hv ht ht
        · exact ⟨hdig, hlen, by simp, by simp⟩
        · exact ⟨hdig, hlen, by simp, fun _ => h4⟩
        · exact ⟨by simp, by simp, by simp, by simp⟩
        · exact ⟨hdig, hlen, by simp, fun _ => h4⟩
      · exact ⟨hdig, hlen, by simp, fun _ => h4⟩
  | success =>
      simp only [codeTick]
      exact ⟨hdig, hlen, by simp, by simp⟩

theorem codeRun_inv (l : List CInput) :
    ∀ c : Code, CodeInv c → CodeInv (codeRun c l) := by
  induction l with
  | nil => exact fun c h => h
  | cons inp rest ih => exact fun c h => ih (codeTick c inp) (codeTick_inv c inp h)

/-- C9: every reachable `Code` state has an input buffer of at most 4
ASCII digit bytes, and in state `InputFinished` the buffer is exactly 4
digits, so `input.parse::<u32>()` succeeds. -/
theorem code_input_safety (secret : ℕ) (ticks : List CInput) :
    (∀ b ∈ (codeRun (Code.new secret) ticks).input, 0x30 ≤ b ∧ b ≤ 0x39)
      ∧ (codeRun (Code.new secret) ticks).input.length ≤ 4
      ∧ ((codeRun (Code.new secret) ticks).state = .inputFinished →
          (parseInput (codeRun (Code.new secret) ticks).input).isSome = true) := by
  have hinv : CodeInv (codeRun (Code.new secret) ticks) := by
    refine codeRun_inv ticks (Code.new secret) ?_
    exact ⟨by simp [Code.new], by simp [Code.new], by simp [Code.new], by simp [Code.new]⟩
  obtain ⟨hdig, hlen, _, hfin⟩ := hinv
  exact ⟨hdig, hlen, fun hst => parseInput_isSome _ hdig (hfin hst)⟩

theorem code_input_safety_witness :
    (codeRun (Code.new 1234)
        [⟨true, true, false, .noRay, 0⟩,
         ⟨true, false, true, .hit (some 1), 0⟩,
         ⟨true, false, false, .hit (some 2), 0⟩,
         ⟨true, false, true, .hit (some 2), 0⟩,
         ⟨true, false, false, .hit (some 3), 0⟩,
         ⟨true, false, true, .hit (some 3), 0⟩,
         ⟨true, false, false, .hit (some 4), 0⟩,
         ⟨true, false, true, .hit (some 4), 0⟩]).state = .inputFinished
      ∧ (parseInput (codeRun (Code.new 1234)
          [⟨true, true, false, .noRay, 0⟩,
           ⟨true, false, true, .hit (some 1), 0⟩,
           ⟨true, false, false, .hit (some 2), 0⟩,
           ⟨true, false, true, .hit (some 2), 0⟩,
           ⟨true, false, false, .hit (some 3), 0⟩,
           ⟨true, false, true, .hit (some 3), 0⟩,
           ⟨true, false, false, .hit (some 4), 0⟩,
           ⟨true, false, true, .hit (some 4), 0⟩]).input).isSome = true := by
  constructor
  · rfl
  · exact (code_input_safety 1234 _).2.2 rfl

/-! ## Socket (src/components/socket.rs)

Sockets are indexed by their position in the world's socket list; cameras
by a natural-number id.  The raycast query results along the carry path
are per-tick external inputs: `breakHit` is the nearest solid, non-sensor,
non-player hit `(distance, under-carried-socket?)` of the first cast,
`camHit` the nearest hit of the camera-filtered cast `(distance, owning
SecurityCamera id)` (the `reduce_to_root` ancestor walk that maps the hit
entity to its camera root is folded into the id).  In the source the two
per-tick loops over `sockets.iter_mut()` touch disjoint data — each
socket's own fields plus last-write-wins locals — so the first loop is
embedded as an index-wise map (`tickSock`) plus last-match-wins scans for
the `inside`/`carrying`/pickup locals. -/

/-- `State` of a socket. -/
inductive SState where
  | canCarryFrom
  | canCarryTo
  | carrying
  | connectedTo (peer : ℕ)
  | connectedFrom
  deriving DecidableEq, Repr

/-- The `Socket` component (discovered sensor/wire entities omitted;
`camera` is the currently wire-bypass-marked camera id). -/
structure Sock where
  state : SState
  is_action_last : Bool
  break_timer : ℚ
  camera : Option ℕ
  deriving DecidableEq, Repr

instance : Inhabited Sock :=
  ⟨{ state := .canCarryFrom, is_action_last := false, break_timer := 0, camera := none }⟩

/-- The socket-relevant world state: the player's carried-socket slot, the
sockets, and each camera's `wire` bypass flag. -/
structure SWorld where
  playerSocket : Option ℕ
  sockets : List Sock
  camWire : ℕ → Bool

/-- Per-tick inputs of the socket `update` system. -/
structure SInput where
  is_action : Bool
  inside : ℕ → Bool
  breakHit : Option (ℚ × Bool)
  camHit : Option (ℚ × ℕ)
  dt : ℚ

/-- The first-loop body for one socket: the action edge is latched and a
`CanCarryFrom` socket inside the player's reach is picked up. -/
def tickSock (inp : SInput) (i : ℕ) (s : Sock) : Sock :=
  let acted := !s.is_action_last && inp.is_action
  match s.state with
  | .canCarryFrom =>
      if inp.inside i && acted then { s with is_action_last := inp.is_action, state := .carrying }
      else { s with is_action_last := inp.is_action }
  | _ => { s with is_action_last := inp.is_action }

/-- The sockets after the first loop. -/
def phase1Socks (inp : SInput) : ℕ → List Sock → List Sock
  | _, [] => []
  | i, s :: rest => tickSock inp i s :: phase1Socks inp (i + 1) rest

/-- The `inside` local after the first loop: the last `CanCarryTo` socket
the player is inside of. -/
def phase1Insides (inp : SInput) : ℕ → List Sock → Option ℕ
  | _, [] => none
  | i, s :: rest =>
      match phase1Insides inp (i + 1) rest with
      | some j => some j
      | none => if s.state = .canCarryTo ∧ inp.inside i then some i else none

/-- The `carrying`/`is_acted` locals after the first loop: the last socket
already in state `Carrying`, with its action edge. -/
def phase1Carry (inp : SInput) : ℕ → List Sock → Option (ℕ × Bool)
  | _, [] => none
  | i, s :: rest =>
      match phase1Carry inp (i + 1) rest with
      | some r => some r
      | none =>
          if s.state = .carrying then some (i, !s.is_action_last && inp.is_action) else none

/-- The last pickup of the first loop (writes `player.socket`). -/
def phase1Pickup (inp : SInput) : ℕ → List Sock → Option ℕ
  | _, [] => none
  | i, s :: rest =>
      match phase1Pickup inp (i + 1) rest with
      | some j => some j
      | none =>
          if s.state = .canCarryFrom ∧ inp.inside i ∧ (!s.is_action_last && inp.is_action) = true
          then some i else none

/-- The `distance` local of the raycast block: 0.0 unless the break ray
hit (set whether or not the hit belongs to the carried socket). -/
def rayDistance (inp : SInput) : ℚ :=
  match inp.breakHit with
  | some p => p.1
  | none => 0

/-- The `breaking` local: the break ray hit something outside the carried
socket's hierarchy. -/
def rayBreaking (inp : SInput) : Bool :=
  match inp.breakHit with
  | some p => !p.2
  | none => false

/-- The `camera` local: the camera ray hit, kept only when strictly nearer
than `rayDistance`. -/
def rayCamera (inp : SInput) : Option ℕ :=
  match inp.camHit with
  | some p => if p.1 < rayDistance inp then some p.2 else none
  | none => none

/-- The wire-bypass block of the socket `update`: marks the hit camera (or
clears the previously marked one when the camera result is empty) on the
carried socket `ci`. -/
def camPhase (cameraRes : Option ℕ) (cw : ℕ → Bool) (socks : List Sock) (ci : ℕ) :
    List Sock × (ℕ → Bool) :=
  let sockCi := (socks.get? ci).getD default
  match cameraRes with
  | some c =>
      (socks.set ci { sockCi with camera := some c },
        fun x => if x = c then true else cw x)
  | none =>
      match sockCi.camera with
      | some c0 =>
          (socks.set ci { sockCi with camera := none },
            fun x => if x = c0 then false else cw x)
      | none => (socks, cw)

/-- The socket `update` system.  Wire-mesh rendering (the separate `wire`
system) is omitted.  When a connection commits, the origin and destination
indices differ (`get_many_mut` would panic otherwise), which holds because
their states differ. -/
def socketUpdate (w : SWorld) (inp : SInput) : SWorld :=
  let socks := phase1Socks inp 0 w.sockets
  let pSocket := match phase1Pickup inp 0 w.sockets with
    | some j => some j
    | none => w.playerSocket
  match phase1Carry inp 0 w.sockets with
  | none => { playerSocket := pSocket, sockets := socks, camWire := w.camWire }
  | some (ci, isActed) =>
    let pr := camPhase (rayCamera inp) w.camWire socks ci
    let socks := pr.1
    let camWire := pr.2
    let sockCi := (socks.get? ci).getD default
    let bt := if rayBreaking inp then sockCi.break_timer + inp.dt * 2
      else sockCi.break_timer - inp.dt * 5
    if 1 ≤ bt then
      { playerSocket := pSocket,
        sockets := socks.set ci { sockCi with state := .canCarryFrom, break_timer := 0 },
        camWire := camWire }
    else
      let sockCi := { sockCi with break_timer := min (max bt 0) 1 }
      let socks := socks.set ci sockCi
      match phase1Insides inp 0 w.sockets with
      | some di =>
          if isActed then
            let sockDi := (socks.get? di).getD default
            { playerSocket := pSocket,
              sockets := (socks.set ci { sockCi with state := .connectedTo di }).set di
                { sockDi with state := .connectedFrom },
              camWire := camWire }
          else { playerSocket := pSocket, sockets := socks, camWire := camWire }
      | none =>
          if isActed then
            { playerSocket := pSocket,
              sockets := socks.set ci { sockCi with state := .canCarryFrom },
              camWire := camWire }
          else { playerSocket := pSocket, sockets := socks, camWire := camWire }

/-- Iterated socket ticks. -/
def socketRun (w : SWorld) : List SInput → SWorld
  | [] => w
  | inp :: rest => socketRun (socketUpdate w inp) rest

/-- The pre-states visited by a run of socket ticks. -/
def socketTrace (w : SWorld) : List SInput → List SWorld
  | [] => [w]
  | inp :: rest => w :: socketTrace (socketUpdate w inp) rest

/-- No socket is currently in state `Carrying`. -/
def noCarrying (w : SWorld) : Prop := ∀ s ∈ w.sockets, s.state ≠ .carrying

theorem tickSock_break (inp : SInput) (i : ℕ) (s : Sock) :
    (tickSock inp i s).break_timer = s.break_timer := by
  obtain ⟨st, ial, bt, cam⟩ := s
  cases st with
  | canCarryFrom => dsimp only [tickSock]; split_ifs <;> rfl
  | canCarryTo => rfl
  | carrying => rfl
  | connectedTo p => rfl
  | connectedFrom => rfl

theorem tickSock_camera (inp : SInput) (i : ℕ) (s : Sock) :
    (tickSock inp i s).camera = s.camera := by
  obtain ⟨st, ial, bt, cam⟩ := s
  cases st with
  | canCarryFrom => dsimp only [tickSock]; split_ifs <;> rfl
  | canCarryTo => rfl
  | carrying => rfl
  | connectedTo p => rfl
  | connectedFrom => rfl

theorem tickSock_carrying (inp : SInput) (i : ℕ) (s : Sock)
    (h : s.state = .carrying) : (tickSock inp i s).state = .carrying := by
  unfold tickSock
  rw [h]

theorem phase1Socks_get (inp : SInput) :
    ∀ (socks : List Sock) (i j : ℕ),
      (phase1Socks inp i socks).get? j = (socks.get? j).map (tickSock inp (i + j)) := by
  intro socks
  induction socks with
  | nil => intro i j; simp [phase1Socks]
  | cons s rest ih =>
      intro i j
      cases j with
      | zero => simp [phase1Socks]
      | succ j =>
          show (phase1Socks inp (i + 1) rest).get? j = _
          rw [ih (i + 1) j]
          have : i + 1 + j = i + (j + 1) := by omega
          rw [this]
          rfl

theorem phase1Socks_length (inp : SInput) :
    ∀ (socks : List Sock) (i : ℕ), (phase1Socks inp i socks).length = socks.length := by
  intro socks
  induction socks with
  | nil => intro i; rfl
  | cons s rest ih => intro i; simp [phase1Socks, ih]

theorem phase1Carry_spec (inp : SInput) :
    ∀ (socks : List Sock) (i ci : ℕ) (a : Bool),
      phase1Carry inp i socks = some (ci, a) →
      i ≤ ci ∧ ∃ s, socks.get? (ci - i) = some s ∧ s.state = .carrying
        ∧ a = (!s.is_action_last && inp.is_action) := by
  intro socks
  induction socks with
  | nil => intro i ci a h; simp [phase1Carry] at h
  | cons s rest ih =>
      intro i ci a h
      rw [phase1Carry] at h
      cases hr : phase1Carry inp (i + 1) rest with
      | some r =>
          rw [hr] at h
          obtain ⟨h1, s', hs', hst, ha⟩ := by
            refine ih (i + 1) ci a ?_
            rw [hr]
            simpa using h
          refine ⟨by omega, s', ?_, hst, ha⟩
          have : ci - i = (ci - (i + 1)) + 1 := by omega
          rw [this]
          simpa using hs'
      | none =>
          rw [hr] at h
          split_ifs at h with hst
          · simp only [Option.some.injEq, Prod.mk.injEq] at h
            obtain ⟨hi, ha⟩ := h
            have h0 : ci - i = 0 := by omega
            refine ⟨by omega, s, ?_, hst, ha.symm⟩
            rw [h0]
            rfl

theorem phase1Carry_none (inp : SInput) :
    ∀ (socks : List Sock) (i : ℕ), (∀ s ∈ socks, s.state ≠ .carrying) →
      phase1Carry inp i socks = none := by
  intro socks
  induction socks with
  | nil => intro i _; rfl
  | cons s rest ih =>
      intro i h
      rw [phase1Carry, ih (i + 1) (fun x hx => h x (List.mem_cons_of_mem _ hx))]
      rw [if_neg (h s (List.mem_cons_self _ _))]

theorem phase1Insides_spec (inp : SInput) :
    ∀ (socks : List Sock) (i di : ℕ),
      phase1Insides inp i socks = some di →
      i ≤ di ∧ ∃ s, socks.get? (di - i) = some s ∧ s.state = .canCarryTo := by
  intro socks
  induction socks with
  | nil => intro i di h; simp [phase1Insides] at h
  | cons s rest ih =>
      intro i di h
      rw [phase1Insides] at h
      cases hr : phase1Insides inp (i + 1) rest with
      | some r =>
          rw [hr] at h
          simp only [Option.some.injEq] at h
          obtain ⟨h1, s', hs', hst⟩ := ih (i + 1) di (by rw [hr, h])
          refine ⟨by omega, s', ?_, hst⟩
          have : di - i = (di - (i + 1)) + 1 := by omega
          rw [this]
          simpa using hs'
      | none =>
          rw [hr] at h
          split_ifs at h with hst
          · simp only [Option.some.injEq] at h
            have h0 : di - i = 0 := by omega
            refine ⟨by omega, s, ?_, hst.1⟩
            rw [h0]
            rfl

theorem socketUpdate_noCarry_eq (w : SWorld) (inp : SInput)
    (h : phase1Carry inp 0 w.sockets = none) :
    socketUpdate w inp =
      { playerSocket := match phase1Pickup inp 0 w.sockets with
          | some j => some j
          | none => w.playerSocket,
        sockets := phase1Socks inp 0 w.sockets,
        camWire := w.camWire } := by
  unfold socketUpdate
  rw [h]

theorem socketUpdate_carry_eq (w : SWorld) (inp : SInput) (ci : ℕ) (a : Bool)
    (h : phase1Carry inp 0 w.sockets = some (ci, a)) :
    socketUpdate w inp =
      (let socks := phase1Socks inp 0 w.sockets
       let pSocket := match phase1Pickup inp 0 w.sockets with
         | some j => some j
         | none => w.playerSocket
       let pr := camPhase (rayCamera inp) w.camWire socks ci
       let socks := pr.1
       let camWire := pr.2
       let sockCi := (socks.get? ci).getD default
       let bt := if rayBreaking inp then sockCi.break_timer + inp.dt * 2
         else sockCi.break_timer - inp.dt * 5
       if 1 ≤ bt then
         { playerSocket := pSocket,
           sockets := socks.set ci { sockCi with state := .canCarryFrom, break_timer := 0 },
           camWire := camWire }
       else
         let sockCi := { sockCi with break_timer := min (max bt 0) 1 }
         let socks := socks.set ci sockCi
         match phase1Insides inp 0 w.sockets with
         | some di =>
             if a then
               let sockDi := (socks.get? di).getD default
               { playerSocket := pSocket,
                 sockets := (socks.set ci { sockCi with state := .connectedTo di }).set di
                   { sockDi with state := .connectedFrom },
                 camWire := camWire }
             else { playerSocket := pSocket, sockets := socks, camWire := camWire }
         | none =>
             if a then
               { playerSocket := pSocket,
                 sockets := socks.set ci { sockCi with state := .canCarryFrom },
                 camWire := camWire }
             else { playerSocket := pSocket, sockets := socks, camWire := camWire }) := by
  unfold socketUpdate
  rw [h]

theorem camPhase_break (r : Option ℕ) (cw : ℕ → Bool) (socks : List Sock) (ci : ℕ) :
    ∀ i, (((camPhase r cw socks ci).1.get? i)).map Sock.break_timer
      = (socks.get? i).map Sock.break_timer := by
  intro i
  have hset : ∀ (t : Sock), t.break_timer = ((socks.get? ci).getD default).break_timer →
      ((socks.set ci t).get? i).map Sock.break_timer = (socks.get? i).map Sock.break_timer := by
    intro t ht
    by_cases hic : ci = i
    · subst hic
      by_cases hlt : ci < socks.length
      · rw [List.get?_set_eq_of_lt _ hlt, List.get?_eq_get hlt]
        have ht2 : t.break_timer = (socks.get ⟨ci, hlt⟩).break_timer := by
          rw [ht, List.get?_eq_get hlt]
          rfl
        rw [Option.map_some', Option.map_some', ht2]
      · rw [List.set_eq_of_length_le (by omega)]
    · rw [List.get?_set_ne _ _ hic]
  unfold camPhase
  cases r with
  | some c =>
      dsimp only
      exact hset _ rfl
  | none =>
      dsimp only
      cases hc : ((socks.get? ci).getD default).camera with
      | some c0 =>
          dsimp only
          exact hset _ rfl
      | none => rfl

theorem getD_break_eq {o1 o2 : Option Sock}
    (h : o1.map Sock.break_timer = o2.map Sock.break_timer) :
    (o1.getD default).break_timer = (o2.getD default).break_timer := by
  cases o1 <;> cases o2 <;> simp_all

theorem phase1Socks_break (inp : SInput) (socks : List Sock) :
    ∀ i, ((phase1Socks inp 0 socks).get? i).map Sock.break_timer
      = (socks.get? i).map Sock.break_timer := by
  intro i
  rw [phase1Socks_get]
  cases h : socks.get? i with
  | none => rfl
  | some s => simp [tickSock_break]

theorem camPhase_length (r : Option ℕ) (cw : ℕ → Bool) (socks : List Sock) (ci : ℕ) :
    (camPhase r cw socks ci).1.length = socks.length := by
  unfold camPhase
  cases r with
  | some c => simp
  | none =>
      dsimp only
      cases hc : ((socks.get? ci).getD default).camera with
      | some c0 => simp
      | none => rfl

theorem camPhase_some_fst (c : ℕ) (cw : ℕ → Bool) (socks : List Sock) (ci : ℕ) :
    (camPhase (some c) cw socks ci).1
      = socks.set ci { (socks.get? ci).getD default with camera := some c } := rfl

theorem camPhase_some_snd (c : ℕ) (cw : ℕ → Bool) (socks : List Sock) (ci : ℕ) :
    (camPhase (some c) cw socks ci).2 = fun x => if x = c then true else cw x := rfl

theorem socketUpdate_noCarry_camWire (w : SWorld) (inp : SInput)
    (h : phase1Carry inp 0 w.sockets = none) :
    ∀ c, (socketUpdate w inp).camWire c = w.camWire c := by
  rw [socketUpdate_noCarry_eq w inp h]
  intro c
  rfl

theorem socketUpdate_noCarry_break (w : SWorld) (inp : SInput)
    (h : phase1Carry inp 0 w.sockets = none) :
    ∀ i, ((socketUpdate w inp).sockets.get? i).map Sock.break_timer
      = (w.sockets.get? i).map Sock.break_timer := by
  rw [socketUpdate_noCarry_eq w inp h]
  exact phase1Socks_break inp w.sockets

theorem socketRun_noCarrying (inps : List SInput) :
    ∀ w : SWorld, (∀ w' ∈ socketTrace w inps, noCarrying w') →
      ∀ c, (socketRun w inps).camWire c = w.camWire c := by
  induction inps with
  | nil => intro w _ c; rfl
  | cons inp rest ih =>
      intro w h c
      have hw : noCarrying w := h w (by rw [socketTrace]; exact List.mem_cons_self _ _)
      have hnone := phase1Carry_none inp w.sockets 0 hw
      have hrest := ih (socketUpdate w inp)
        (fun w' hw' => h w' (by rw [socketTrace]; exact List.mem_cons_of_mem _ hw')) c
      calc (socketRun w (inp :: rest)).camWire c
          = (socketRun (socketUpdate w inp) rest).camWire c := rfl
        _ = (socketUpdate w inp).camWire c := hrest
        _ = w.camWire c := socketUpdate_noCarry_camWire w inp hnone c

theorem rayCamera_eq_some (inp : SInput) (dc db : ℚ) (c : ℕ) (u : Bool)
    (hcam : inp.camHit = some (dc, c)) (hbreak : inp.breakHit = some (db, u))
    (hlt : dc < db) : rayCamera inp = some c := by
  unfold rayCamera rayDistance
  rw [hcam, hbreak]
  dsimp only
  rw [if_pos hlt]

/-- The candidate `break_timer` value the update computes for the carried
socket `ci` (its `break_timer` is untouched by the earlier phases of the
same tick). -/
def carryBreakTimerNext (w : SWorld) (inp : SInput) (ci : ℕ) : ℚ :=
  let bt0 := ((w.sockets.get? ci).getD default).break_timer
  if rayBreaking inp then bt0 + inp.dt * 2 else bt0 - inp.dt * 5

theorem socketUpdate_drop (w : SWorld) (inp : SInput) (ci : ℕ) (a : Bool) (c : ℕ)
    (hcarry : phase1Carry inp 0 w.sockets = some (ci, a))
    (hcam : rayCamera inp = some c)
    (hbt : 1 ≤ carryBreakTimerNext w inp ci) :
    (socketUpdate w inp).camWire c = true
      ∧ ((socketUpdate w inp).sockets.get? ci).map Sock.state = some SState.canCarryFrom
      ∧ ((socketUpdate w inp).sockets.get? ci).map Sock.break_timer = some 0 := by
  have hci : ci < w.sockets.length := by
    obtain ⟨_, s, hs, _⟩ := phase1Carry_spec inp w.sockets 0 ci a hcarry
    rw [Nat.sub_zero] at hs
    obtain ⟨hlt, _⟩ := List.get?_eq_some.mp hs
    exact hlt
  have hbreq : (((camPhase (rayCamera inp) w.camWire (phase1Socks inp 0 w.sockets) ci).1.get?
      ci).getD default).break_timer = ((w.sockets.get? ci).getD default).break_timer :=
    getD_break_eq (by rw [camPhase_break]; exact phase1Socks_break inp w.sockets ci)
  have hlen : ci < (camPhase (rayCamera inp) w.camWire
      (phase1Socks inp 0 w.sockets) ci).1.length := by
    rw [camPhase_length, phase1Socks_length]
    exact hci
  rw [socketUpdate_carry_eq w inp ci a hcarry]
  dsimp only
  have hbteq : (if rayBreaking inp
      then (((camPhase (rayCamera inp) w.camWire (phase1Socks inp 0 w.sockets) ci).1.get?
          ci).getD default).break_timer + inp.dt * 2
      else (((camPhase (rayCamera inp) w.camWire (phase1Socks inp 0 w.sockets) ci).1.get?
          ci).getD default).break_timer - inp.dt * 5) = carryBreakTimerNext w inp ci := by
    unfold carryBreakTimerNext
    rw [hbreq]
  rw [hbteq, if_pos hbt]
  refine ⟨?_, ?_, ?_⟩
  · rw [hcam, camPhase_some_snd]
    simp
  · rw [List.get?_set_eq_of_lt _ hlen, Option.map_some']
  · rw [List.get?_set_eq_of_lt _ hlen, Option.map_some']

/-- Sample world for witnesses: one idle socket, no carried socket, all
camera wire flags false. -/
def sampleSock : Sock :=
  { state := .canCarryFrom, is_action_last := false, break_timer := 0, camera := none }

def sampleSWorld : SWorld :=
  { playerSocket := none, sockets := [sampleSock], camWire := fun _ => false }

/-- Sample inputs for witnesses: no action, player nowhere, no ray hits. -/
def sampleSInput : SInput :=
  { is_action := false, inside := fun _ => false, breakHit := none, camHit := none, dt := 1 }

/-- C10: the socket update mutates camera wire-bypass flags only while
some socket is in state Carrying: (1) when the first loop finds no
carrying socket the update leaves every camera's wire flag and every
socket's break_timer unchanged; (2) that is the case whenever no socket is
in state Carrying; (3) on a forced break-drop tick (candidate break_timer
≥ 1) where the camera raycast marked camera `c`, the drop still leaves
`c`'s wire flag true while the carried socket falls back to CanCarryFrom;
(4) the flags then stay unchanged over any run in which no socket is ever
Carrying. -/
theorem socket_wire_flag_frame_spec (w : SWorld) (inp : SInput) :
    (phase1Carry inp 0 w.sockets = none →
        (∀ c, (socketUpdate w inp).camWire c = w.camWire c)
          ∧ (∀ i, ((socketUpdate w inp).sockets.get? i).map Sock.break_timer
              = (w.sockets.get? i).map Sock.break_timer))
      ∧ (noCarrying w → phase1Carry inp 0 w.sockets = none)
      ∧ (∀ (ci : ℕ) (a : Bool) (c : ℕ),
          phase1Carry inp 0 w.sockets = some (ci, a) →
          rayCamera inp = some c →
          1 ≤ carryBreakTimerNext w inp ci →
          (socketUpdate w inp).camWire c = true
            ∧ ((socketUpdate w inp).sockets.get? ci).map Sock.state = some SState.canCarryFrom)
      ∧ (∀ inps : List SInput, (∀ w' ∈ socketTrace w inps, noCarrying w') →
          ∀ c, (socketRun w inps).camWire c = w.camWire c) := by
  refine ⟨?_, ?_, ?_, ?_⟩
  · intro h
    exact ⟨socketUpdate_noCarry_camWire w inp h, socketUpdate_noCarry_break w inp h⟩
  · intro h
    exact phase1Carry_none inp w.sockets 0 h
  · intro ci a c hcarry hcam hbt
    obtain ⟨h1, h2, _⟩ := socketUpdate_drop w inp ci a c hcarry hcam hbt
    exact ⟨h1, h2⟩
  · exact fun inps h c => socketRun_noCarrying inps w h c

theorem socket_wire_flag_frame_spec_witness :
    noCarrying sampleSWorld
      ∧ (socketUpdate sampleSWorld sampleSInput).camWire 5 = sampleSWorld.camWire 5 := by
  have hnc : noCarrying sampleSWorld := by
    intro s hs
    simp only [sampleSWorld, List.mem_singleton] at hs
    subst hs
    simp [sampleSock]
  refine ⟨hnc, ?_⟩
  exact ((socket_wire_flag_frame_spec sampleSWorld sampleSInput).1
    ((socket_wire_flag_frame_spec sampleSWorld sampleSInput).2.1 hnc)).1 5

theorem socketUpdate_camWire_carry (w : SWorld) (inp : SInput) (ci : ℕ) (a : Bool)
    (hcarry : phase1Carry inp 0 w.sockets = some (ci, a)) :
    (socketUpdate w inp).camWire
      = (camPhase (rayCamera inp) w.camWire (phase1Socks inp 0 w.sockets) ci).2 := by
  rw [socketUpdate_carry_eq w inp ci a hcarry]
  dsimp only
  split_ifs <;> (try rfl) <;> (split <;> (try split_ifs) <;> rfl)

theorem camPhase_none_wire (cw : ℕ → Bool) (socks : List Sock) (ci : ℕ) :
    ∀ x, (camPhase none cw socks ci).2 x = true → cw x = true := by
  intro x
  unfold camPhase
  dsimp only
  cases hc : ((socks.get? ci).getD default).camera with
  | some c0 =>
      dsimp only
      intro h
      by_cases hx : x = c0
      · rw [if_pos hx] at h
        exact absurd h (by simp)
      · rwa [if_neg hx] at h
  | none => exact fun h => h

theorem rayCamera_none_of_no_break (inp : SInput) (hb : inp.breakHit = none)
    (hpos : ∀ d c, inp.camHit = some (d, c) → 0 ≤ d) : rayCamera inp = none := by
  unfold rayCamera rayDistance
  rw [hb]
  cases hc : inp.camHit with
  | none => rfl
  | some p =>
      dsimp only
      rw [if_neg]
      exact not_lt.mpr (hpos p.1 p.2 (by rw [hc]))

theorem rayCamera_none_of_far (inp : SInput) (dc db : ℚ) (c : ℕ) (u : Bool)
    (hcam : inp.camHit = some (dc, c)) (hbreak : inp.breakHit = some (db, u))
    (h : ¬ dc < db) : rayCamera inp = none := by
  unfold rayCamera rayDistance
  rw [hcam, hbreak]
  dsimp only
  rw [if_neg h]

/-- C4 (amended): during a carrying tick the wire-bypass flag of the hit
camera is set only when BOTH raycasts hit and the camera hit is strictly
nearer than the break hit (the break distance defaults to 0 when the break
ray missed, so a missing break obstruction never enables the bypass, and a
tie disables it too); whenever the camera result is thereby empty, no
camera flag is newly set (the previously marked one may be cleared); and
when the marked camera changes, only the new camera's flag is written —
the flag of any other camera, including the previously marked one, is left
as it was. -/
theorem socket_camera_bypass_spec (w : SWorld) (inp : SInput) (ci : ℕ) (a : Bool)
    (hcarry : phase1Carry inp 0 w.sockets = some (ci, a))
    (hpos : ∀ d c, inp.camHit = some (d, c) → 0 ≤ d) :
    (∀ (dc db : ℚ) (c : ℕ) (u : Bool),
        inp.camHit = some (dc, c) → inp.breakHit = some (db, u) → dc < db →
        (socketUpdate w inp).camWire c = true
          ∧ ∀ c0, c0 ≠ c → (socketUpdate w inp).camWire c0 = w.camWire c0)
      ∧ (inp.breakHit = none →
          ∀ c, (socketUpdate w inp).camWire c = true → w.camWire c = true)
      ∧ (∀ (dc db : ℚ) (c : ℕ) (u : Bool),
          inp.camHit = some (dc, c) → inp.breakHit = some (db, u) → ¬ dc < db →
          ∀ x, (socketUpdate w inp).camWire x = true → w.camWire x = true) := by
  have hproj := socketUpdate_camWire_carry w inp ci a hcarry
  refine ⟨?_, ?_, ?_⟩
  · intro dc db c u hcam hbreak hlt
    have hray : rayCamera inp = some c := rayCamera_eq_some inp dc db c u hcam hbreak hlt
    constructor
    · rw [show (socketUpdate w inp).camWire c
          = (camPhase (rayCamera inp) w.camWire (phase1Socks inp 0 w.sockets) ci).2 c from
            congrFun hproj c, hray, camPhase_some_snd]
      simp
    · intro c0 hc0
      rw [show (socketUpdate w inp).camWire c0
          = (camPhase (rayCamera inp) w.camWire (phase1Socks inp 0 w.sockets) ci).2 c0 from
            congrFun hproj c0, hray, camPhase_some_snd]
      simp [hc0]
  · intro hb c
    have hray : rayCamera inp = none := rayCamera_none_of_no_break inp hb hpos
    rw [show (socketUpdate w inp).camWire c
        = (camPhase (rayCamera inp) w.camWire (phase1Socks inp 0 w.sockets) ci).2 c from
          congrFun hproj c, hray]
    exact camPhase_none_wire w.camWire (phase1Socks inp 0 w.sockets) ci c
  · intro dc db c u hcam hbreak hlt x
    have hray : rayCamera inp = none := rayCamera_none_of_far inp dc db c u hcam hbreak hlt
    rw [show (socketUpdate w inp).camWire x
        = (camPhase (rayCamera inp) w.camWire (phase1Socks inp 0 w.sockets) ci).2 x from
          congrFun hproj x, hray]
    exact camPhase_none_wire w.camWire (phase1Socks inp 0 w.sockets) ci x

/-- A world with one carried socket, for the C4 counterexample. -/
def cexSock : Sock :=
  { state := .carrying, is_action_last := false, break_timer := 0, camera := none }

def cexSWorld : SWorld :=
  { playerSocket := some 0, sockets := [cexSock], camWire := fun _ => false }

/-- Carrying-tick inputs in which the camera ray hits camera 7 at distance
5 while the break ray hits nothing. -/
def cexSInput : SInput :=
  { is_action := false, inside := fun _ => false, breakHit := none,
    camHit := some (5, 7), dt := 0 }

theorem camPhase_none_noMark (cw : ℕ → Bool) (socks : List Sock) (ci : ℕ)
    (hc : ((socks.get? ci).getD default).camera = none) :
    (camPhase none cw socks ci).2 = cw := by
  unfold camPhase
  dsimp only
  rw [hc]

/-- C4 counterexample: a socket is being carried, the camera raycast hits
camera 7 (distance 5) and no break obstruction was hit — the claim says
the camera's wire-bypass flag must be set, but the update leaves it false
(the `distance` local stays 0.0, so the `< distance` test fails). -/
theorem socket_camera_bypass_cex :
    phase1Carry cexSInput 0 cexSWorld.sockets = some (0, false)
      ∧ cexSInput.camHit = some (5, 7) ∧ cexSInput.breakHit = none
      ∧ (socketUpdate cexSWorld cexSInput).camWire 7 = false := by
  refine ⟨by decide, rfl, rfl, ?_⟩
  have hproj := socketUpdate_camWire_carry cexSWorld cexSInput 0 false (by decide)
  have hray : rayCamera cexSInput = none := by
    unfold rayCamera rayDistance
    rw [show cexSInput.camHit = some ((5 : ℚ), (7 : ℕ)) from rfl,
      show cexSInput.breakHit = (none : Option (ℚ × Bool)) from rfl]
    dsimp only
    rw [if_neg (by norm_num)]
  have hcamera : (((phase1Socks cexSInput 0 cexSWorld.sockets).get? 0).getD default).camera
      = none := by
    rw [phase1Socks_get]
    rw [show cexSWorld.sockets.get? 0 = some cexSock from rfl]
    rw [Option.map_some', Option.getD_some, tickSock_camera]
    rfl
  rw [congrFun hproj 7, hray, camPhase_none_noMark _ _ _ hcamera]
  rfl

/-- Carrying-tick inputs in which the camera ray (distance 5, camera 7) is
strictly nearer than the break hit (distance 10). -/
def cexSInput2 : SInput :=
  { is_action := false, inside := fun _ => false, breakHit := some (10, false),
    camHit := some (5, 7), dt := 0 }

theorem socket_camera_bypass_spec_witness :
    phase1Carry cexSInput2 0 cexSWorld.sockets = some (0, false)
      ∧ (socketUpdate cexSWorld cexSInput2).camWire 7 = true := by
  have hpos : ∀ (d : ℚ) (c : ℕ), cexSInput2.camHit = some (d, c) → 0 ≤ d := by
    intro d c h
    have h' : some ((5 : ℚ), (7 : ℕ)) = some (d, c) := h
    simp only [Option.some.injEq, Prod.mk.injEq] at h'
    rw [← h'.1]
    norm_num
  refine ⟨by decide, ?_⟩
  exact ((socket_camera_bypass_spec cexSWorld cexSInput2 0 false (by decide) hpos).1
    5 10 7 false rfl rfl (by norm_num)).1

theorem tickSock_state_keep (inp : SInput) (i : ℕ) (s : Sock)
    (h : s.state ≠ .canCarryFrom) : (tickSock inp i s).state = s.state := by
  obtain ⟨st, ial, bt, cam⟩ := s
  cases st with
  | canCarryFrom => exact absurd rfl h
  | canCarryTo => rfl
  | carrying => rfl
  | connectedTo p => rfl
  | connectedFrom => rfl

theorem camPhase_get_ne (r : Option ℕ) (cw : ℕ → Bool) (socks : List Sock) (ci i : ℕ)
    (h : i ≠ ci) : (camPhase r cw socks ci).1.get? i = socks.get? i := by
  unfold camPhase
  cases r with
  | some c =>
      dsimp only
      exact List.get?_set_ne _ _ (fun hc => h hc.symm)
  | none =>
      dsimp only
      cases hc : ((socks.get? ci).getD default).camera with
      | some c0 =>
          dsimp only
          exact List.get?_set_ne _ _ (fun hc => h hc.symm)
      | none => rfl

theorem camPhase_state (r : Option ℕ) (cw : ℕ → Bool) (socks : List Sock) (ci : ℕ) :
    ∀ i, (((camPhase r cw socks ci).1.get? i)).map Sock.state
      = (socks.get? i).map Sock.state := by
  intro i
  have hset : ∀ (t : Sock), t.state = ((socks.get? ci).getD default).state →
      ((socks.set ci t).get? i).map Sock.state = (socks.get? i).map Sock.state := by
    intro t ht
    by_cases hic : ci = i
    · subst hic
      by_cases hlt : ci < socks.length
      · rw [List.get?_set_eq_of_lt _ hlt, List.get?_eq_get hlt]
        have ht2 : t.state = (socks.get ⟨ci, hlt⟩).state := by
          rw [ht, List.get?_eq_get hlt]
          rfl
        rw [Option.map_some', Option.map_some', ht2]
      · rw [List.set_eq_of_length_le (by omega)]
    · rw [List.get?_set_ne _ _ hic]
  unfold camPhase
  cases r with
  | some c =>
      dsimp only
      exact hset _ rfl
  | none =>
      dsimp only
      cases hc : ((socks.get? ci).getD default).camera with
      | some c0 =>
          dsimp only
          exact hset _ rfl
      | none => rfl

theorem state_getD_of_map {o : Option Sock} {st : SState}
    (h : o.map Sock.state = some st) : (o.getD default).state = st := by
  cases o <;> simp_all

theorem socketUpdate_bt_eq (w : SWorld) (inp : SInput) (ci : ℕ) :
    (if rayBreaking inp
      then (((camPhase (rayCamera inp) w.camWire (phase1Socks inp 0 w.sockets) ci).1.get?
          ci).getD default).break_timer + inp.dt * 2
      else (((camPhase (rayCamera inp) w.camWire (phase1Socks inp 0 w.sockets) ci).1.get?
          ci).getD default).break_timer - inp.dt * 5) = carryBreakTimerNext w inp ci := by
  have hbreq : (((camPhase (rayCamera inp) w.camWire (phase1Socks inp 0 w.sockets) ci).1.get?
      ci).getD default).break_timer = ((w.sockets.get? ci).getD default).break_timer :=
    getD_break_eq (by rw [camPhase_break]; exact phase1Socks_break inp w.sockets ci)
  unfold carryBreakTimerNext
  rw [hbreq]

theorem insides_facts (w : SWorld) (inp : SInput) (ci : ℕ) (a : Bool) (di : ℕ)
    (hcarry : phase1Carry inp 0 w.sockets = some (ci, a))
    (hins : phase1Insides inp 0 w.sockets = some di) :
    di ≠ ci ∧ di < w.sockets.length
      ∧ ∃ s', w.sockets.get? di = some s' ∧ s'.state = .canCarryTo := by
  obtain ⟨-, s, hs, hsst, -⟩ := phase1Carry_spec inp w.sockets 0 ci a hcarry
  rw [Nat.sub_zero] at hs
  obtain ⟨-, s', hs', hs'st⟩ := phase1Insides_spec inp w.sockets 0 di hins
  rw [Nat.sub_zero] at hs'
  have hdci : di ≠ ci := by
    intro h
    subst h
    rw [hs] at hs'
    rw [← Option.some_inj.mp hs'] at hs'st
    rw [hsst] at hs'st
    exact absurd hs'st (by simp)
  obtain ⟨hdl, -⟩ := List.get?_eq_some.mp hs'
  exact ⟨hdci, hdl, s', hs', hs'st⟩

/-- C5: for the carried socket the update computes the candidate
break-timer `bt0 + 2Δt` while the wire path is obstructed and `bt0 - 5Δt`
otherwise; if that candidate reaches 1 the socket is forcibly dropped back
to CanCarryFrom with break_timer reset to 0 and the connection attempt of
that same tick is discarded (the inside destination stays CanCarryTo);
below 1 the stored break_timer is the candidate clamped to [0,1];
a connect (destination inside, action edge) sets the origin to
ConnectedTo(destination) and the destination to ConnectedFrom in the same
tick — and with no action edge neither happens. -/
theorem socket_break_connect_spec (w : SWorld) (inp : SInput) (ci : ℕ) (a : Bool)
    (hcarry : phase1Carry inp 0 w.sockets = some (ci, a)) :
    (1 ≤ carryBreakTimerNext w inp ci →
        ((socketUpdate w inp).sockets.get? ci).map Sock.state = some SState.canCarryFrom
          ∧ ((socketUpdate w inp).sockets.get? ci).map Sock.break_timer = some 0
          ∧ (∀ di, phase1Insides inp 0 w.sockets = some di →
              ((socketUpdate w inp).sockets.get? di).map Sock.state = some SState.canCarryTo))
      ∧ (carryBreakTimerNext w inp ci < 1 →
          ((socketUpdate w inp).sockets.get? ci).map Sock.break_timer
              = some (max (carryBreakTimerNext w inp ci) 0)
            ∧ 0 ≤ max (carryBreakTimerNext w inp ci) 0
            ∧ max (carryBreakTimerNext w inp ci) 0 ≤ 1)
      ∧ (carryBreakTimerNext w inp ci < 1 → a = true →
          ∀ di, phase1Insides inp 0 w.sockets = some di →
            ((socketUpdate w inp).sockets.get? ci).map Sock.state
                = some (SState.connectedTo di)
              ∧ ((socketUpdate w inp).sockets.get? di).map Sock.state
                = some SState.connectedFrom)
      ∧ (carryBreakTimerNext w inp ci < 1 → a = false →
          ((socketUpdate w inp).sockets.get? ci).map Sock.state = some SState.carrying
            ∧ ∀ di, phase1Insides inp 0 w.sockets = some di →
                ((socketUpdate w inp).sockets.get? di).map Sock.state
                  = some SState.canCarryTo) := by
  obtain ⟨-, s, hs, hsst, -⟩ := phase1Carry_spec inp w.sockets 0 ci a hcarry
  rw [Nat.sub_zero] at hs
  obtain ⟨hci, -⟩ := List.get?_eq_some.mp hs
  have hciL : ci < (camPhase (rayCamera inp) w.camWire
      (phase1Socks inp 0 w.sockets) ci).1.length := by
    rw [camPhase_length, phase1Socks_length]
    exact hci
  have hstateCi : ((camPhase (rayCamera inp) w.camWire (phase1Socks inp 0 w.sockets) ci).1.get?
      ci).map Sock.state = some SState.carrying := by
    rw [camPhase_state, phase1Socks_get, hs, Option.map_some', Option.map_some',
      tickSock_carrying _ _ _ hsst]
  have hdi : ∀ di, phase1Insides inp 0 w.sockets = some di →
      ((camPhase (rayCamera inp) w.camWire (phase1Socks inp 0 w.sockets) ci).1.get? di).map
          Sock.state = some SState.canCarryTo := by
    intro di hins
    obtain ⟨hdci, hdl, s', hs', hs'st⟩ := insides_facts w inp ci a di hcarry hins
    rw [camPhase_get_ne _ _ _ _ _ hdci, phase1Socks_get, hs', Option.map_some',
      Option.map_some', tickSock_state_keep _ _ _ (by rw [hs'st]; simp), hs'st]
  rw [socketUpdate_carry_eq w inp ci a hcarry]
  dsimp only
  rw [socketUpdate_bt_eq]
  refine ⟨?_, ?_, ?_, ?_⟩
  · intro h1
    rw [if_pos h1]
    refine ⟨?_, ?_, ?_⟩
    · rw [List.get?_set_eq_of_lt _ hciL, Option.map_some']
    · rw [List.get?_set_eq_of_lt _ hciL, Option.map_some']
    · intro di hins
      obtain ⟨hdci, -, -⟩ := insides_facts w inp ci a di hcarry hins
      rw [List.get?_set_ne _ _ (fun h => hdci h.symm)]
      exact hdi di hins
  · intro h1
    rw [if_neg (not_le.mpr h1)]
    have hclamp : min (max (carryBreakTimerNext w inp ci) 0) 1
        = max (carryBreakTimerNext w inp ci) 0 :=
      min_eq_left (max_le (le_of_lt h1) zero_le_one)
    refine ⟨?_, le_max_right _ _, max_le (le_of_lt h1) zero_le_one⟩
    cases hins : phase1Insides inp 0 w.sockets with
    | some di =>
        obtain ⟨hdci, -, -⟩ := insides_facts w inp ci a di hcarry hins
        dsimp only
        cases ha : a with
        | true =>
            rw [if_pos rfl]
            rw [List.get?_set_ne _ _ hdci,
              List.get?_set_eq_of_lt _ (by rw [List.length_set]; exact hciL),
              Option.map_some']
            dsimp only
            rw [hclamp]
        | false =>
            rw [if_neg (by simp)]
            rw [List.get?_set_eq_of_lt _ hciL, Option.map_some']
            dsimp only
            rw [hclamp]
    | none =>
        dsimp only
        cases ha : a with
        | true =>
            rw [if_pos rfl]
            rw [List.get?_set_eq_of_lt _ (by rw [List.length_set]; exact hciL),
              Option.map_some']
            dsimp only
            rw [hclamp]
        | false =>
            rw [if_neg (by simp)]
            rw [List.get?_set_eq_of_lt _ hciL, Option.map_some']
            dsimp only
            rw [hclamp]
  · intro h1 ha di hins
    subst ha
    rw [if_neg (not_le.mpr h1), hins]
    dsimp only
    rw [if_pos rfl]
    obtain ⟨hdci, hdl, -⟩ := insides_facts w inp ci true di hcarry hins
    constructor
    · rw [List.get?_set_ne _ _ hdci,
        List.get?_set_eq_of_lt _ (by rw [List.length_set]; exact hciL), Option.map_some']
    · rw [List.get?_set_eq_of_lt _ (by
        rw [List.length_set, List.length_set, camPhase_length, phase1Socks_length]
        exact hdl), Option.map_some']
  · intro h1 ha
    subst ha
    rw [if_neg (not_le.mpr h1)]
    constructor
    · cases hins : phase1Insides inp 0 w.sockets with
      | some di =>
          dsimp only
          rw [if_neg (by simp)]
          rw [List.get?_set_eq_of_lt _ hciL, Option.map_some']
          dsimp only
          rw [state_getD_of_map hstateCi]
      | none =>
          dsimp only
          rw [if_neg (by simp)]
          rw [List.get?_set_eq_of_lt _ hciL, Option.map_some']
          dsimp only
          rw [state_getD_of_map hstateCi]
    · intro di hins
      obtain ⟨hdci, -, -⟩ := insides_facts w inp ci false di hcarry hins
      rw [hins]
      dsimp only
      rw [if_neg (by simp)]
      rw [List.get?_set_ne _ _ (fun h => hdci h.symm)]
      exact hdi di hins

/-- Carrying-tick inputs: obstructed wire (break hit outside the carried
hierarchy at distance 3), no camera hit, delta-time 1 s. -/
def cexSInput3 : SInput :=
  { is_action := false, inside := fun _ => false, breakHit := some (3, false),
    camHit := none, dt := 1 }

theorem socket_break_connect_spec_witness :
    phase1Carry cexSInput3 0 cexSWorld.sockets = some (0, false)
      ∧ 1 ≤ carryBreakTimerNext cexSWorld cexSInput3 0
      ∧ ((socketUpdate cexSWorld cexSInput3).sockets.get? 0).map Sock.state
          = some SState.canCarryFrom := by
  have hbt : 1 ≤ carryBreakTimerNext cexSWorld cexSInput3 0 := by
    simp only [carryBreakTimerNext, rayBreaking, cexSWorld, cexSock, cexSInput3,
      List.get?_cons_zero, Option.getD_some, Bool.not_false, if_true]
    norm_num
  exact ⟨by decide, hbt,
    ((socket_break_connect_spec cexSWorld cexSInput3 0 false (by decide)).1 hbt).1⟩

/-! ## Level wiring (src/levels/lvl2.rs, src/levels/lvl4.rs) -/

/-- `GameState` (src/main.rs). -/
inductive GameState where
  | restart
  | level0
  | level1
  | level2
  | level3
  | level4
  deriving DecidableEq, Repr

/-- Modelled from the spec: `Socket::connected()` is not present under
`src` (only its callers in the level wiring are); per the spec it returns
true iff the socket's state is `ConnectedTo` or `ConnectedFrom`. -/
def connected : SState → Bool
  | .connectedTo _ => true
  | .connectedFrom => true
  | _ => false

/-- The cross-element commands a wiring evaluation emits towards the level
sequencer: the `Restart(..)` resource insertion and the ordered
`NextState<GameState>` writes (`game_state.set`, last write wins). -/
structure WiringOut where
  restartRes : Option GameState
  writes : List GameState

/-- The elements `lvl2.rs`'s `process_sensors` reads (queries are reduced
to the activation bits and states the wiring consumes). -/
structure Lvl2Elems where
  code1_activated : Bool
  switch1_activated : Bool
  cam1 : SecurityCamera
  fan1_spinning : Bool
  socket_end : SState

/-- `process_sensors` of Level2: stops fan1 when code1 is solved,
deactivates cam1 when switch1 is activated, requests a restart when cam1
is triggered, and advances to Level3 when the end socket is connected. -/
def lvl2ProcessSensors (e : Lvl2Elems) : Lvl2Elems × WiringOut :=
  let fan1 := if e.code1_activated then false else e.fan1_spinning
  let cam1 := if e.switch1_activated then { e.cam1 with active := false } else e.cam1
  let (restartRes, writes) :=
    if cam1.triggered then (some GameState.level2, [GameState.restart])
    else (none, [])
  let writes := writes ++ (if connected e.socket_end then [GameState.level3] else [])
  ({ e with fan1_spinning := fan1, cam1 := cam1 },
    { restartRes := restartRes, writes := writes })

/-- The elements `lvl4.rs`'s `process_sensors` reads. -/
structure Lvl4Elems where
  socket_end : SState
  gate1 : Gate
  gate2 : Gate
  gate3 : Gate
  gate4 : Gate
  gate5 : Gate
  switch1_activated : Bool
  switch2_activated : Bool
  switch3_activated : Bool
  switch4_activated : Bool
  switch5_activated : Bool
  code1_activated : Bool
  code2_activated : Bool
  code3_activated : Bool
  code4_activated : Bool
  fan1_spinning : Bool
  fan2_spinning : Bool
  fan3_spinning : Bool
  cam1 : SecurityCamera

/-- `process_sensors` of Level4 (gate-open commands guarded by
`!opened()`, fan stops, cam deactivation, restart on trigger, advance to
Level2 on connection). -/
def lvl4ProcessSensors (e : Lvl4Elems) : Lvl4Elems × WiringOut :=
  let gate1 := if e.code1_activated && !(Gate.opened e.gate1) then Gate.open e.gate1 else e.gate1
  let gate3 := if e.code2_activated && !(Gate.opened e.gate3) then Gate.open e.gate3 else e.gate3
  let fan2 := if e.code3_activated then false else e.fan2_spinning
  let gate2 := if e.code4_activated && !(Gate.opened e.gate2) then Gate.open e.gate2 else e.gate2
  let fan1 := if e.switch1_activated then false else e.fan1_spinning
  let gate5 := if e.switch2_activated && !(Gate.opened e.gate5) then Gate.open e.gate5 else e.gate5
  let cam1 := if e.switch3_activated then { e.cam1 with active := false } else e.cam1
  let gate4 := if e.switch4_activated && !(Gate.opened e.gate4) then Gate.open e.gate4 else e.gate4
  let fan3 := if e.switch5_activated then false else e.fan3_spinning
  let (restartRes, writes) :=
    if cam1.triggered then (some GameState.level4, [GameState.restart])
    else (none, [])
  let writes := writes ++ (if connected e.socket_end then [GameState.level2] else [])
  let e2 : Lvl4Elems :=
    { e with
      gate1 := gate1, gate2 := gate2, gate3 := gate3, gate4 := gate4, gate5 := gate5,
      fan1_spinning := fan1, fan2_spinning := fan2, fan3_spinning := fan3, cam1 := cam1 }
  (e2, { restartRes := restartRes, writes := writes })

/-- C2 counterexample: in Level2's wiring, a tick on which the wired
camera is triggered and the end socket is connected produces BOTH the
restart write and the advance write in a single evaluation. -/
theorem level_transition_double_write :
    (lvl2ProcessSensors
        { code1_activated := false, switch1_activated := false,
          cam1 := { active := true, triggered := true, wire := false },
          fan1_spinning := true, socket_end := .connectedFrom }).2.writes
      = [GameState.restart, GameState.level3] := by
  rfl

/-- C2 (amended): each wiring evaluation writes the transition signal at
most twice: the restart write occurs iff the wired camera is triggered and
the advance write iff the end socket is connected; when only one condition
holds at most one write occurs, and when both hold both writes occur, the
restart write first and the advance write last (last-write-wins). -/
theorem level_transition_writes_spec (e : Lvl2Elems) (f : Lvl4Elems) :
    ((lvl2ProcessSensors e).2.writes.length ≤ 2)
      ∧ (¬(e.cam1.triggered = true ∧ connected e.socket_end = true) →
          (lvl2ProcessSensors e).2.writes.length ≤ 1)
      ∧ (GameState.restart ∈ (lvl2ProcessSensors e).2.writes ↔ e.cam1.triggered = true)
      ∧ (GameState.level3 ∈ (lvl2ProcessSensors e).2.writes ↔ connected e.socket_end = true)
      ∧ (e.cam1.triggered = true → connected e.socket_end = true →
          (lvl2ProcessSensors e).2.writes = [GameState.restart, GameState.level3])
      ∧ ((lvl4ProcessSensors f).2.writes.length ≤ 2)
      ∧ (¬(f.cam1.triggered = true ∧ connected f.socket_end = true) →
          (lvl4ProcessSensors f).2.writes.length ≤ 1)
      ∧ (GameState.restart ∈ (lvl4ProcessSensors f).2.writes ↔ f.cam1.triggered = true)
      ∧ (GameState.level2 ∈ (lvl4ProcessSensors f).2.writes ↔ connected f.socket_end = true)
      ∧ (f.cam1.triggered = true → connected f.socket_end = true →
          (lvl4ProcessSensors f).2.writes = [GameState.restart, GameState.level2]) := by
  refine ⟨?_, ?_, ?_, ?_, ?_, ?_, ?_, ?_, ?_, ?_⟩ <;>
    (first
      | ((by_cases ht : e.cam1.triggered = true <;>
          by_cases hc : connected e.socket_end = true <;>
          by_cases hs : e.switch1_activated = true <;>
          simp [lvl2ProcessSensors, ht, hc, hs]); done)
      | ((by_cases ht : f.cam1.triggered = true <;>
          by_cases hc : connected f.socket_end = true <;>
          by_cases hs : f.switch3_activated = true <;>
          simp [lvl4ProcessSensors, ht, hc, hs]); done))

theorem level_transition_writes_spec_witness :
    ¬((false : Bool) = true ∧ connected SState.canCarryFrom = true)
      ∧ (lvl2ProcessSensors
          { code1_activated := false, switch1_activated := false,
            cam1 := SecurityCamera.new, fan1_spinning := true,
            socket_end := .canCarryFrom }).2.writes.length ≤ 1 := by
  constructor
  · intro h
    exact absurd h.2 (by decide)
  · exact (level_transition_writes_spec
      { code1_activated := false, switch1_activated := false,
        cam1 := SecurityCamera.new, fan1_spinning := true, socket_end := .canCarryFrom }
      { socket_end := .canCarryFrom, gate1 := Gate.new, gate2 := Gate.new, gate3 := Gate.new,
        gate4 := Gate.new, gate5 := Gate.new, switch1_activated := false,
        switch2_activated := false, switch3_activated := false, switch4_activated := false,
        switch5_activated := false, code1_activated := false, code2_activated := false,
        code3_activated := false, code4_activated := false, fan1_spinning := true,
        fan2_spinning := true, fan3_spinning := true, cam1 := SecurityCamera.new }).2.1
      (by decide)
